import Mathlib

/-
Verification of `bokeh/util/hex.py` (hexagonal binning utilities).

The module has three layers:
  * `_round_hex`   : rounds continuous axial hex coordinates to the integer
                     axial coordinates of the nearest hexagon center, using
                     cube-coordinate rounding with a largest-error correction;
  * `cartesian_to_axial` : maps Cartesian points to axial coordinates via an
                     orientation-dependent basis matrix, then rounds;
  * `hexbin`       : groups the rounded tiles and counts points per tile
                     (the grouping is delegated to pandas in the source).

The embedding models NumPy float arrays as `List ℚ` with exact rational
arithmetic, and NumPy's elementwise broadcasting for two 1-d arrays
explicitly (`npBroadcast2`).  The irrational constant `sqrt(3)` appearing in
the basis matrices is carried as an abstract parameter `sqrt3 : ℚ`; no claim
depends on its numeric value.  Errors (NumPy broadcast failures, the missing
optional pandas dependency) are modelled with `Except String`.
-/

/-- NumPy `np.round`: round to the nearest integer, with exact halves rounded
to the nearest even integer (IEEE 754 "round half to even", which is what
`np.round` implements). -/
def np_round (x : ℚ) : ℤ :=
  if x - ⌊x⌋ < 1/2 then ⌊x⌋
  else if 1/2 < x - ⌊x⌋ then ⌊x⌋ + 1
  else if ⌊x⌋ % 2 = 0 then ⌊x⌋ else ⌊x⌋ + 1

/-- Per-point body of `_round_hex` (the source operates on whole arrays at
once; every operation it performs is elementwise, so the array function is the
pointwise map of this function).  Mirrors the source exactly:

    x = q; z = r; y = -x-z
    rx, ry, rz = round(x), round(y), round(z)
    dx, dy, dz = abs(rx-x), abs(ry-y), abs(rz-z)
    cond = (dx > dy) & (dx > dz)
    q = where(cond, -(ry+rz), rx)
    r = where(~cond & ~(dy > dz), -(rx+ry), rz)  -/
def roundHexPoint (q r : ℚ) : ℤ × ℤ :=
  let x := q
  let z := r
  let y := -x - z
  let rx := np_round x
  let ry := np_round y
  let rz := np_round z
  let dx := |(rx : ℚ) - x|
  let dy := |(ry : ℚ) - y|
  let dz := |(rz : ℚ) - z|
  let q2 : ℤ := if dx > dy ∧ dx > dz then -(ry + rz) else rx
  let r2 : ℤ := if ¬(dx > dy ∧ dx > dz) ∧ ¬(dy > dz) then -(rx + ry) else rz
  (q2, r2)

/-- NumPy broadcasting of two 1-d arrays for an elementwise binary operation:
equal lengths pass through, a length-1 array is stretched to the other
array's length, and any other combination raises a broadcast error. -/
def npBroadcast2 (xs ys : List ℚ) : Except String (List ℚ × List ℚ) :=
  if xs.length = ys.length then .ok (xs, ys)
  else if xs.length = 1 then .ok (List.replicate ys.length xs.headI, ys)
  else if ys.length = 1 then .ok (xs, List.replicate xs.length ys.headI)
  else .error "operands could not be broadcast together"

/-- Array-level `_round_hex`: the source's elementwise NumPy pipeline, i.e.
broadcasting `q` against `r` (they first meet in `y = -x-z`) and then applying
the pointwise rounding to each pair. -/
def _round_hex (q r : List ℚ) : Except String (List ℤ × List ℤ) :=
  match npBroadcast2 q r with
  | .error e => .error e
  | .ok (qs, rs) => .ok ((List.zipWith roundHexPoint qs rs).unzip)

/-- Basis matrix `_HEX_FLAT = [2/3, 0, -1/3, sqrt(3)/3]` from the source,
with `sqrt3` standing for `np.sqrt(3.0)`. -/
def _HEX_FLAT (sqrt3 : ℚ) : ℚ × ℚ × ℚ × ℚ := (2/3, 0, -1/3, sqrt3 / 3)

/-- Basis matrix `_HEX_POINTY = [sqrt(3)/3, -1/3, 0, 2/3]` from the source,
with `sqrt3` standing for `np.sqrt(3.0)`. -/
def _HEX_POINTY (sqrt3 : ℚ) : ℚ × ℚ × ℚ × ℚ := (sqrt3 / 3, -1/3, 0, 2/3)

/-- Basis selection from the source:
`coords = _HEX_FLAT if orientation == 'flattop' else _HEX_POINTY`. -/
def hexBasis (sqrt3 : ℚ) (orientation : String) : ℚ × ℚ × ℚ × ℚ :=
  if orientation = "flattop" then _HEX_FLAT sqrt3 else _HEX_POINTY sqrt3

/-- Per-point continuous part of `cartesian_to_axial` (everything before the
call to `_round_hex`), mirroring the source:

    x =  x / size * (aspect_scale if orientation == "pointytop" else 1)
    y = -y / size / (aspect_scale if orientation == "flattop" else 1)
    q = coords[0] * x + coords[1] * y
    r = coords[2] * x + coords[3] * y  -/
def axialContinuousPoint (sqrt3 x y size : ℚ) (orientation : String)
    (aspect_scale : ℚ) : ℚ × ℚ :=
  let coords := hexBasis sqrt3 orientation
  let x2 := x / size * (if orientation = "pointytop" then aspect_scale else 1)
  let y2 := -y / size / (if orientation = "flattop" then aspect_scale else 1)
  (coords.1 * x2 + coords.2.1 * y2, coords.2.2.1 * x2 + coords.2.2.2 * y2)

/-- Per-point composition of the continuous map and the hex rounding: the
value `cartesian_to_axial` computes for one input point. -/
def cartesianToAxialPoint (sqrt3 x y size : ℚ) (orientation : String)
    (aspect_scale : ℚ) : ℤ × ℤ :=
  let p := axialContinuousPoint sqrt3 x y size orientation aspect_scale
  roundHexPoint p.1 p.2

/-- Array-level `cartesian_to_axial` from the source: the vectorized
continuous transform (where `x` and `y` first meet elementwise, NumPy
broadcasting applies), followed by `_round_hex`. -/
def cartesian_to_axial (sqrt3 : ℚ) (x y : List ℚ) (size : ℚ)
    (orientation : String) (aspect_scale : ℚ) :
    Except String (List ℤ × List ℤ) :=
  match npBroadcast2 x y with
  | .error e => .error e
  | .ok (xs, ys) =>
      let qr := List.zipWith
        (fun a b => axialContinuousPoint sqrt3 a b size orientation aspect_scale)
        xs ys
      _round_hex (qr.map Prod.fst) (qr.map Prod.snd)

/-- Decidable equality for `Except`, so that concrete runs of the embedded
functions can be checked by `decide`. -/
instance {ε α : Type} [DecidableEq ε] [DecidableEq α] :
    DecidableEq (Except ε α) := fun a b =>
  match a, b with
  | .ok x, .ok y =>
      if h : x = y then .isTrue (by rw [h]) else .isFalse (by simp [h])
  | .error e, .error f =>
      if h : e = f then .isTrue (by rw [h]) else .isFalse (by simp [h])
  | .ok _, .error _ => .isFalse (by simp)
  | .error _, .ok _ => .isFalse (by simp)

/-- Ascending lexicographic order on tile keys `(q, r)`: the order in which
`pandas.groupby(['q', 'r'])` emits its groups. -/
def hexKeyLe (p q : ℤ × ℤ) : Bool :=
  p.1 < q.1 || (p.1 = q.1 && p.2 ≤ q.2)

/-- Number of points assigned to tile `k` in the per-point tile list `l`. -/
def tileCount (l : List (ℤ × ℤ)) (k : ℤ × ℤ) : ℕ :=
  l.countP fun p => decide (p = k)

/-- Modelled from the spec: the external tabular grouping facility (pandas
`DataFrame.groupby(['q', 'r']).size()`), which is not part of the source
file.  Per the spec it is fed the point-indexed tile keys and returns one
`(q, r, counts)` record per distinct key, grouped stably by the natural
ordering of the keys. -/
def groupCounts (l : List (ℤ × ℤ)) : List (ℤ × ℤ × ℕ) :=
  (l.dedup.mergeSort hexKeyLe).map fun k => (k.1, k.2, tileCount l k)

/-- The `hexbin` entry point.  The pandas availability test is modelled from
the spec: pandas is an optional dependency resolved by `import_optional`
(which lives outside the translated source file); per the spec, when the
facility is unavailable the Aggregator fails with a descriptive
"optional dependency missing" error.  Everything after that mirrors the
source: map the points with `cartesian_to_axial`, then group the resulting
`(q, r)` tile keys and count the rows of each group. -/
def hexbin (sqrt3 : ℚ) (pandas_available : Bool) (x y : List ℚ) (size : ℚ)
    (orientation : String) (aspect_scale : ℚ) :
    Except String (List (ℤ × ℤ × ℕ)) :=
  if pandas_available = false then
    .error "optional dependency missing: pandas"
  else
    match cartesian_to_axial sqrt3 x y size orientation aspect_scale with
    | .error e => .error e
    | .ok (q, r) => .ok (groupCounts (q.zip r))

/-- Definition following the spec's words for the Mapper (section 4.1), used
only to compare against the source-derived `axialContinuousPoint`:
normalize by dividing by size, multiply the normalized x by aspect_scale for
pointy-top, divide the normalized y by aspect_scale for flat-top, always
sign-invert the y value, then take the two linear combinations given by the
orientation's basis coefficients. -/
def mapperSpecPoint (sqrt3 x y size : ℚ) (orientation : String)
    (aspect_scale : ℚ) : ℚ × ℚ :=
  let xn := x / size
  let yn := y / size
  let xc := if orientation = "pointytop" then xn * aspect_scale else xn
  let yc := -(if orientation = "flattop" then yn / aspect_scale else yn)
  let c := hexBasis sqrt3 orientation
  (c.1 * xc + c.2.1 * yc, c.2.2.1 * xc + c.2.2.2 * yc)

unseal Rat.mul Rat.add Rat.sub Rat.inv in
example : roundHexPoint (1/3) (1/3) = (0, 1) := by decide

unseal Rat.mul Rat.add Rat.sub Rat.inv in
example : np_round (5/2) = 2 := by decide

unseal Rat.mul Rat.add Rat.sub Rat.inv in
example : np_round (-3/2) = -2 := by decide

unseal Rat.mul Rat.add Rat.sub Rat.inv in
example : cartesian_to_axial (26/15) [0] [0] 1 "pointytop" 1 = .ok ([0], [0]) := by decide

unseal List.mergeSort List.merge Rat.mul Rat.add Rat.sub Rat.inv in
example : hexbin (26/15) true [0, 0] [0, 0] 1 "pointytop" 1 = .ok [(0, 0, 2)] := by decide

unseal List.mergeSort List.merge Rat.mul Rat.add Rat.sub Rat.inv in
example : hexbin (26/15) true [] [] 1 "pointytop" 1 = .ok [] := by decide

/-- Unfolded form of `roundHexPoint`, used to reason about its branches. -/
lemma roundHexPoint_eq (q r : ℚ) :
    roundHexPoint q r =
      (if |(np_round q : ℚ) - q| > |(np_round (-q - r) : ℚ) - (-q - r)| ∧
          |(np_round q : ℚ) - q| > |(np_round r : ℚ) - r|
       then -(np_round (-q - r) + np_round r) else np_round q,
       if ¬(|(np_round q : ℚ) - q| > |(np_round (-q - r) : ℚ) - (-q - r)| ∧
            |(np_round q : ℚ) - q| > |(np_round r : ℚ) - r|) ∧
          ¬(|(np_round (-q - r) : ℚ) - (-q - r)| > |(np_round r : ℚ) - r|)
       then -(np_round q + np_round (-q - r)) else np_round r) := rfl

/-- Rounding an integer-valued rational returns that integer. -/
lemma np_round_intCast (n : ℤ) : np_round (n : ℚ) = n := by
  unfold np_round
  rw [Int.floor_intCast]
  norm_num

/-- C1: The Hex Rounder computes cube coordinates x = q, z = r, y = -x-z,
rounds each to the nearest integer with error magnitudes dx, dy, dz, and
outputs q = -(ry+rz) exactly when dx is strictly greater than both dy and dz
(else q = rx), and r = -(rx+ry) exactly when dx is not strictly largest and
dy is not strictly greater than dz (else r = rz); an exact three-way tie
dx = dy = dz falls through to the z-correction branch, giving
(q, r) = (rx, -(rx+ry)). -/
theorem round_hex_branch_structure (q r : ℚ) :
    roundHexPoint q r =
      (if |(np_round q : ℚ) - q| > |(np_round (-q - r) : ℚ) - (-q - r)| ∧
          |(np_round q : ℚ) - q| > |(np_round r : ℚ) - r|
       then -(np_round (-q - r) + np_round r) else np_round q,
       if ¬(|(np_round q : ℚ) - q| > |(np_round (-q - r) : ℚ) - (-q - r)| ∧
            |(np_round q : ℚ) - q| > |(np_round r : ℚ) - r|) ∧
          ¬(|(np_round (-q - r) : ℚ) - (-q - r)| > |(np_round r : ℚ) - r|)
       then -(np_round q + np_round (-q - r)) else np_round r) ∧
    (|(np_round q : ℚ) - q| = |(np_round (-q - r) : ℚ) - (-q - r)| →
     |(np_round (-q - r) : ℚ) - (-q - r)| = |(np_round r : ℚ) - r| →
     roundHexPoint q r = (np_round q, -(np_round q + np_round (-q - r)))) := by
  refine ⟨roundHexPoint_eq q r, fun h1 h2 => ?_⟩
  rw [roundHexPoint_eq, h1, h2]
  simp [lt_irrefl]

unseal Rat.mul Rat.add Rat.sub Rat.inv in
/-- Witness for C1 at the exact three-way tie (q, r) = (1/3, 1/3), where
dx = dy = dz = 1/3: the tie falls through to the z-correction branch. -/
theorem round_hex_branch_structure_witness :
    roundHexPoint (1/3) (1/3) =
      (np_round (1/3), -(np_round (1/3) + np_round (-(1/3) - 1/3))) :=
  (round_hex_branch_structure (1/3) (1/3)).2 (by decide) (by decide)

/-- C2: For every axial input pair the Rounder's outputs are integers (by
the return type of the embedding) and, with s = -q-r the implicit third cube
coordinate, q + s + r = 0 holds after the correction; moreover the corrected
cube triple (q, s, r) agrees with the independently rounded triple
(rx, ry, rz) on the two axes that were kept (one of the three possible pairs
of kept axes always agrees exactly). -/
theorem round_hex_cube_invariant (q r : ℚ) :
    (roundHexPoint q r).1 + (-(roundHexPoint q r).1 - (roundHexPoint q r).2) +
        (roundHexPoint q r).2 = 0 ∧
    ((-(roundHexPoint q r).1 - (roundHexPoint q r).2 = np_round (-q - r) ∧
        (roundHexPoint q r).2 = np_round r) ∨
     ((roundHexPoint q r).1 = np_round q ∧
        (roundHexPoint q r).2 = np_round r) ∨
     ((roundHexPoint q r).1 = np_round q ∧
        -(roundHexPoint q r).1 - (roundHexPoint q r).2 = np_round (-q - r))) := by
  refine ⟨by ring, ?_⟩
  rw [roundHexPoint_eq]
  by_cases hc : |(np_round q : ℚ) - q| > |(np_round (-q - r) : ℚ) - (-q - r)| ∧
      |(np_round q : ℚ) - q| > |(np_round r : ℚ) - r|
  · exact Or.inl ⟨by simp [hc], by simp [hc]⟩
  · by_cases hd : |(np_round (-q - r) : ℚ) - (-q - r)| > |(np_round r : ℚ) - r|
    · exact Or.inr (Or.inl ⟨by simp [hc], by simp [hc, hd]⟩)
    · exact Or.inr (Or.inr ⟨by simp [hc], by simp [hc, hd]⟩)

/-- C3: The Rounder is idempotent on exact hexagon centers: integer-valued
inputs (q, r) are returned unchanged. -/
theorem round_hex_idempotent (a b : ℤ) :
    roundHexPoint (a : ℚ) (b : ℚ) = (a, b) := by
  have hy : -(a : ℚ) - b = ((-a - b : ℤ) : ℚ) := by push_cast; ring
  rw [roundHexPoint_eq, hy, np_round_intCast, np_round_intCast, np_round_intCast]
  push_cast
  simp only [sub_self, abs_zero, lt_irrefl, gt_iff_lt, false_and, and_false,
    if_false, not_false_iff, true_and, if_true]
  rw [show -(a + (-a - b)) = b by ring]

/-- Broadcasting two arrays of equal length is the identity. -/
lemma npBroadcast2_of_length_eq {xs ys : List ℚ} (h : xs.length = ys.length) :
    npBroadcast2 xs ys = .ok (xs, ys) := by
  simp [npBroadcast2, h]

/-- A successful broadcast always returns two arrays of equal length. -/
lemma npBroadcast2_ok_length {xs ys as bs : List ℚ}
    (h : npBroadcast2 xs ys = .ok (as, bs)) : as.length = bs.length := by
  unfold npBroadcast2 at h
  split_ifs at h with h1 h2 h3
  all_goals simp only [Except.ok.injEq, Prod.mk.injEq, reduceCtorEq] at h
  · obtain ⟨rfl, rfl⟩ := h; exact h1
  · obtain ⟨rfl, rfl⟩ := h; simp
  · obtain ⟨rfl, rfl⟩ := h; simp [h3]

/-- The only error `npBroadcast2` can produce is the broadcast error. -/
lemma npBroadcast2_error {xs ys : List ℚ} {e : String}
    (h : npBroadcast2 xs ys = .error e) :
    e = "operands could not be broadcast together" := by
  unfold npBroadcast2 at h
  split_ifs at h
  all_goals simp_all

/-- Zipping a function over the projections of a pair list is a map. -/
lemma zipWith_fst_snd {α : Type} (f : ℚ → ℚ → α) (l : List (ℚ × ℚ)) :
    List.zipWith f (l.map Prod.fst) (l.map Prod.snd) =
      l.map fun p => f p.1 p.2 := by
  induction l with
  | nil => rfl
  | cons h t ih => simp [ih]

/-- On equal-length inputs, `cartesian_to_axial` succeeds and is the unzipped
pointwise map of `cartesianToAxialPoint`. -/
lemma cartesian_to_axial_ok (sqrt3 : ℚ) {x y : List ℚ} (size : ℚ)
    (o : String) (a : ℚ) (h : x.length = y.length) :
    cartesian_to_axial sqrt3 x y size o a =
      .ok ((List.zipWith (fun p q => cartesianToAxialPoint sqrt3 p q size o a)
        x y).unzip) := by
  unfold cartesian_to_axial _round_hex
  rw [npBroadcast2_of_length_eq h]
  simp only
  rw [npBroadcast2_of_length_eq (by simp)]
  simp only
  rw [zipWith_fst_snd, List.map_zipWith]
  rfl

/-- `cartesian_to_axial` only depends on orientation and aspect scale through
the per-point continuous transform. -/
lemma cartesian_to_axial_congr (sqrt3 : ℚ) (x y : List ℚ) (size : ℚ)
    (o1 o2 : String) (a1 a2 : ℚ)
    (hp : ∀ p q : ℚ, axialContinuousPoint sqrt3 p q size o1 a1 =
      axialContinuousPoint sqrt3 p q size o2 a2) :
    cartesian_to_axial sqrt3 x y size o1 a1 =
      cartesian_to_axial sqrt3 x y size o2 a2 := by
  unfold cartesian_to_axial
  have hfun : (fun p q => axialContinuousPoint sqrt3 p q size o1 a1) =
      fun p q => axialContinuousPoint sqrt3 p q size o2 a2 :=
    funext fun p => funext fun q => hp p q
  rw [hfun]

/-- For an orientation that is neither recognized string, the continuous
transform coincides with pointy-top at aspect scale 1: the pointy basis is
selected and neither aspect correction applies. -/
lemma axialContinuousPoint_unrecognized (sqrt3 x y size a : ℚ) (o : String)
    (h1 : o ≠ "pointytop") (h2 : o ≠ "flattop") :
    axialContinuousPoint sqrt3 x y size o a =
      axialContinuousPoint sqrt3 x y size "pointytop" 1 := by
  unfold axialContinuousPoint hexBasis
  simp [h1, h2]

/-- C6: The Mapper normalizes by size, multiplies normalized x by
aspect_scale for pointy-top, divides normalized y by aspect_scale for
flat-top, always sign-inverts y, and computes q and r as the linear
combinations given by the orientation's basis coefficients
(flat-top [2/3, 0, -1/3, sqrt3/3]; pointy-top [sqrt3/3, -1/3, 0, 2/3]):
the source transform equals the spec-described transform. -/
theorem mapper_matches_spec (sqrt3 x y size : ℚ) (o : String) (a : ℚ) :
    axialContinuousPoint sqrt3 x y size o a = mapperSpecPoint sqrt3 x y size o a ∧
    _HEX_FLAT sqrt3 = (2/3, 0, -1/3, sqrt3 / 3) ∧
    _HEX_POINTY sqrt3 = (sqrt3 / 3, -1/3, 0, 2/3) := by
  refine ⟨?_, rfl, rfl⟩
  unfold axialContinuousPoint mapperSpecPoint hexBasis _HEX_FLAT _HEX_POINTY
  by_cases hf : o = "flattop"
  · simp only [hf, if_true, if_pos rfl, String.reduceEq, if_false, Prod.mk.injEq]
    constructor <;> ring
  · by_cases hp : o = "pointytop"
    · simp only [hf, hp, if_true, if_pos rfl, String.reduceEq, if_false,
        if_neg hf, Prod.mk.injEq]
      constructor <;> ring
    · simp only [if_neg hf, if_neg hp, Prod.mk.injEq]
      constructor <;> ring

/-- C7: Every orientation other than the exact string "flattop" selects the
pointy-top basis, without error; an orientation that is neither recognized
string behaves exactly like "pointytop" with aspect scale 1. -/
theorem orientation_fallback_pointytop (sqrt3 : ℚ) (o : String)
    (h : o ≠ "flattop") :
    hexBasis sqrt3 o = _HEX_POINTY sqrt3 ∧
    (o ≠ "pointytop" → ∀ (x y : List ℚ) (size a : ℚ),
      cartesian_to_axial sqrt3 x y size o a =
        cartesian_to_axial sqrt3 x y size "pointytop" 1) := by
  refine ⟨by simp [hexBasis, h], fun hp x y size a => ?_⟩
  exact cartesian_to_axial_congr sqrt3 x y size o "pointytop" a 1
    (fun p q => axialContinuousPoint_unrecognized sqrt3 p q size a o hp h)

/-- Witness for C7 at the unrecognized orientation string "axial". -/
theorem orientation_fallback_pointytop_witness :
    hexBasis 0 "axial" = _HEX_POINTY 0 ∧
    cartesian_to_axial 0 [1] [1] 1 "axial" 5 =
      cartesian_to_axial 0 [1] [1] 1 "pointytop" 1 :=
  ⟨(orientation_fallback_pointytop 0 "axial" (by decide)).1,
   (orientation_fallback_pointytop 0 "axial" (by decide)).2 (by decide) [1] [1] 1 5⟩

/-- C10: For an orientation that is neither "pointytop" nor "flattop", the
output of `cartesian_to_axial` is independent of aspect_scale. -/
theorem aspect_scale_independent_unrecognized (sqrt3 : ℚ) (x y : List ℚ)
    (size : ℚ) (o : String) (a1 a2 : ℚ)
    (h1 : o ≠ "pointytop") (h2 : o ≠ "flattop") :
    cartesian_to_axial sqrt3 x y size o a1 =
      cartesian_to_axial sqrt3 x y size o a2 :=
  cartesian_to_axial_congr sqrt3 x y size o o a1 a2 fun p q =>
    (axialContinuousPoint_unrecognized sqrt3 p q size a1 o h1 h2).trans
      (axialContinuousPoint_unrecognized sqrt3 p q size a2 o h1 h2).symm

/-- Witness for C10: aspect scales 2 and 7 give identical output for the
unrecognized orientation string "axial". -/
theorem aspect_scale_independent_unrecognized_witness :
    cartesian_to_axial 0 [1] [1] 1 "axial" 2 =
      cartesian_to_axial 0 [1] [1] 1 "axial" 7 :=
  aspect_scale_independent_unrecognized 0 [1] [1] 1 "axial" 2 7
    (by decide) (by decide)

unseal Rat.mul Rat.add Rat.sub Rat.inv in
/-- Counterexample to C4 as stated: with size = -1 (non-positive) the
coordinate mapping raises no error at all; it runs the coordinate math and
returns an ordinary result. -/
theorem size_validation_counterexample :
    cartesian_to_axial (26/15) [0] [0] (-1) "pointytop" 1 = .ok ([0], [0]) := by
  decide

/-- C4 (amended): `cartesian_to_axial` performs no size validation: for every
size, including zero and negative values, and every equal-length batch, the
coordinate math executes and a result is returned; no configuration error is
ever raised. -/
theorem no_size_validation (sqrt3 : ℚ) (x y : List ℚ) (size : ℚ)
    (o : String) (a : ℚ) (h : x.length = y.length) :
    ∃ p : List ℤ × List ℤ, cartesian_to_axial sqrt3 x y size o a = .ok p :=
  ⟨_, cartesian_to_axial_ok sqrt3 size o a h⟩

/-- Witness for amended C4 at the non-positive size -1. -/
theorem no_size_validation_witness :
    ([0] : List ℚ).length = ([0] : List ℚ).length ∧
    ∃ p : List ℤ × List ℤ,
      cartesian_to_axial (26/15) [0] [0] (-1) "pointytop" 1 = .ok p :=
  ⟨rfl, no_size_validation (26/15) [0] [0] (-1) "pointytop" 1 rfl⟩

unseal Rat.mul Rat.add Rat.sub Rat.inv in
/-- Counterexample to C5 as stated: x of length 2 and y of length 1 have
different lengths, yet no error is raised — NumPy broadcasting stretches the
length-1 array and a full result is returned. -/
theorem length_mismatch_counterexample :
    cartesian_to_axial (26/15) [0, 0] [0] 1 "pointytop" 1 =
      .ok ([0, 0], [0, 0]) := by
  decide

/-- On any successfully broadcast input pair, `cartesian_to_axial` succeeds
and is the unzipped pointwise map over the broadcast arrays. -/
lemma cartesian_to_axial_bc (sqrt3 : ℚ) {x y xs ys : List ℚ} (size : ℚ)
    (o : String) (a : ℚ) (hbc : npBroadcast2 x y = .ok (xs, ys)) :
    cartesian_to_axial sqrt3 x y size o a =
      .ok ((List.zipWith (fun p q => cartesianToAxialPoint sqrt3 p q size o a)
        xs ys).unzip) := by
  unfold cartesian_to_axial _round_hex
  rw [hbc]
  simp only
  rw [npBroadcast2_of_length_eq (by simp)]
  simp only
  rw [zipWith_fst_snd, List.map_zipWith]
  rfl

/-- With pandas available, `hexbin` groups whatever tile columns the mapping
produced. -/
lemma hexbin_of_cartesian_ok (sqrt3 : ℚ) (x y : List ℚ) (size : ℚ)
    (o : String) (a : ℚ) {q r : List ℤ}
    (h : cartesian_to_axial sqrt3 x y size o a = .ok (q, r)) :
    hexbin sqrt3 true x y size o a = .ok (groupCounts (q.zip r)) := by
  unfold hexbin
  rw [h]
  rfl

/-- With pandas available, `hexbin` propagates a mapping error unchanged. -/
lemma hexbin_of_cartesian_error (sqrt3 : ℚ) (x y : List ℚ) (size : ℚ)
    (o : String) (a : ℚ) {e : String}
    (h : cartesian_to_axial sqrt3 x y size o a = .error e) :
    hexbin sqrt3 true x y size o a = .error e := by
  unfold hexbin
  rw [h]
  rfl

/-- C5 (amended): `cartesian_to_axial` and `hexbin` fail with the broadcast
(length-mismatch) error — returning no partial result — exactly when the two
input lengths differ and neither is 1; whenever one input has length 1,
NumPy broadcasting silently stretches it to the other input's length and a
successful full-length result of that length is returned instead. -/
theorem length_mismatch_error (sqrt3 : ℚ) (x y : List ℚ) (size : ℚ)
    (o : String) (a : ℚ) :
    (cartesian_to_axial sqrt3 x y size o a =
        .error "operands could not be broadcast together" ↔
      x.length ≠ y.length ∧ x.length ≠ 1 ∧ y.length ≠ 1) ∧
    (hexbin sqrt3 true x y size o a =
        .error "operands could not be broadcast together" ↔
      x.length ≠ y.length ∧ x.length ≠ 1 ∧ y.length ≠ 1) ∧
    (x.length = 1 →
      ∃ q r : List ℤ, cartesian_to_axial sqrt3 x y size o a = .ok (q, r) ∧
        q.length = y.length ∧ r.length = y.length) ∧
    (y.length = 1 →
      ∃ q r : List ℤ, cartesian_to_axial sqrt3 x y size o a = .ok (q, r) ∧
        q.length = x.length ∧ r.length = x.length) := by
  by_cases heq : x.length = y.length
  · have hok := cartesian_to_axial_ok sqrt3 size o a heq
    refine ⟨?_, ?_, fun _ => ?_, fun _ => ?_⟩
    · rw [hok]; simp [heq]
    · rw [hexbin_of_cartesian_ok sqrt3 x y size o a hok]; simp [heq]
    · exact ⟨_, _, hok, by simp [List.length_zipWith, heq],
        by simp [List.length_zipWith, heq]⟩
    · exact ⟨_, _, hok, by simp [List.length_zipWith, heq],
        by simp [List.length_zipWith, heq]⟩
  · by_cases hx1 : x.length = 1
    · have hbc : npBroadcast2 x y =
          .ok (List.replicate y.length x.headI, y) := by
        unfold npBroadcast2
        rw [if_neg heq, if_pos hx1]
      have hok := cartesian_to_axial_bc sqrt3 size o a hbc
      refine ⟨?_, ?_, fun _ => ?_, fun h2 => absurd (hx1.trans h2.symm) heq⟩
      · rw [hok]; simp [hx1]
      · rw [hexbin_of_cartesian_ok sqrt3 x y size o a hok]; simp [hx1]
      · exact ⟨_, _, hok, by simp [List.length_zipWith],
          by simp [List.length_zipWith]⟩
    · by_cases hy1 : y.length = 1
      · have hbc : npBroadcast2 x y =
            .ok (x, List.replicate x.length y.headI) := by
          unfold npBroadcast2
          rw [if_neg heq, if_neg hx1, if_pos hy1]
        have hok := cartesian_to_axial_bc sqrt3 size o a hbc
        refine ⟨?_, ?_, fun h1 => absurd (h1.trans hy1.symm) heq, fun _ => ?_⟩
        · rw [hok]; simp [hy1]
        · rw [hexbin_of_cartesian_ok sqrt3 x y size o a hok]; simp [hy1]
        · exact ⟨_, _, hok, by simp [List.length_zipWith],
            by simp [List.length_zipWith]⟩
      · have herr : cartesian_to_axial sqrt3 x y size o a =
            .error "operands could not be broadcast together" := by
          unfold cartesian_to_axial
          rw [show npBroadcast2 x y =
            .error "operands could not be broadcast together" from by
            unfold npBroadcast2
            rw [if_neg heq, if_neg hx1, if_neg hy1]]
        refine ⟨?_, ?_, fun h1 => absurd h1 hx1, fun h2 => absurd h2 hy1⟩
        · rw [herr]; simp [heq, hx1, hy1]
        · rw [hexbin_of_cartesian_error sqrt3 x y size o a herr]
          simp [heq, hx1, hy1]

/-- Witness for amended C5: a length-1 x against a length-3 y is stretched
and a full (length-3) result is returned. -/
theorem length_mismatch_error_witness :
    ([0] : List ℚ).length = 1 ∧
    (∃ q r : List ℤ,
      cartesian_to_axial (26/15) [0] [0, 0, 0] 1 "pointytop" 1 = .ok (q, r) ∧
      q.length = ([0, 0, 0] : List ℚ).length ∧
      r.length = ([0, 0, 0] : List ℚ).length) :=
  ⟨rfl, (length_mismatch_error (26/15) [0] [0, 0, 0] 1 "pointytop" 1).2.2.1 rfl⟩

/-- C9: When pandas is unavailable, `hexbin` fails with the descriptive
"optional dependency missing" error; the Mapper and Rounder have no pandas
dependency, and the only error `cartesian_to_axial` can produce is the
broadcast error. -/
theorem pandas_missing_error (sqrt3 : ℚ) (x y : List ℚ) (size : ℚ)
    (o : String) (a : ℚ) :
    hexbin sqrt3 false x y size o a =
      .error "optional dependency missing: pandas" ∧
    (∀ e : String, cartesian_to_axial sqrt3 x y size o a = .error e →
      e = "operands could not be broadcast together") := by
  refine ⟨rfl, fun e he => ?_⟩
  unfold cartesian_to_axial at he
  cases hbc : npBroadcast2 x y with
  | error e2 =>
      rw [hbc] at he
      cases he
      exact npBroadcast2_error hbc
  | ok p =>
      obtain ⟨as, bs⟩ := p
      rw [hbc] at he
      simp only at he
      rw [show (_round_hex ((List.zipWith (fun p q =>
          axialContinuousPoint sqrt3 p q size o a) as bs).map Prod.fst)
          ((List.zipWith (fun p q =>
          axialContinuousPoint sqrt3 p q size o a) as bs).map Prod.snd)) =
          .ok ((List.zipWith roundHexPoint
            ((List.zipWith (fun p q =>
              axialContinuousPoint sqrt3 p q size o a) as bs).map Prod.fst)
            ((List.zipWith (fun p q =>
              axialContinuousPoint sqrt3 p q size o a) as bs).map Prod.snd)).unzip)
        from by unfold _round_hex; rw [npBroadcast2_of_length_eq (by simp)]] at he
      cases he

/-- Witness for C9 at a concrete call with pandas unavailable. -/
theorem pandas_missing_error_witness :
    hexbin (26/15) false [0] [0] 1 "pointytop" 1 =
      .error "optional dependency missing: pandas" :=
  (pandas_missing_error (26/15) [0] [0] 1 "pointytop" 1).1

/-- The counts in the grouped output sum to the number of grouped rows. -/
lemma groupCounts_sum (l : List (ℤ × ℤ)) :
    ((groupCounts l).map fun t => t.2.2).sum = l.length := by
  unfold groupCounts
  rw [List.map_map]
  have h1 : (((l.dedup.mergeSort hexKeyLe)).map
        ((fun t : ℤ × ℤ × ℕ => t.2.2) ∘ fun k => (k.1, k.2, tileCount l k))).sum =
      (l.dedup.map fun k => tileCount l k).sum :=
    (((List.mergeSort_perm l.dedup hexKeyLe).map fun k => tileCount l k).sum_eq)
  rw [h1]
  exact List.sum_map_count_dedup_eq_length l

/-- The grouped output has pairwise distinct tile keys. -/
lemma groupCounts_nodup (l : List (ℤ × ℤ)) :
    ((groupCounts l).map fun t => (t.1, t.2.1)).Nodup := by
  unfold groupCounts
  rw [List.map_map]
  have h1 : ((fun t : ℤ × ℤ × ℕ => (t.1, t.2.1)) ∘
      fun k : ℤ × ℤ => (k.1, k.2, tileCount l k)) = id := funext fun k => rfl
  rw [h1, List.map_id]
  exact (List.mergeSort_perm l.dedup hexKeyLe).symm.nodup (List.nodup_dedup l)

/-- Each record's count is the number of rows carrying the record's key. -/
lemma groupCounts_mem (l : List (ℤ × ℤ)) :
    ∀ t ∈ groupCounts l, t.2.2 = tileCount l (t.1, t.2.1) := by
  intro t ht
  unfold groupCounts at ht
  obtain ⟨k, _, rfl⟩ := List.mem_map.1 ht
  rfl

/-- Grouping an empty row list yields an empty result. -/
lemma groupCounts_nil : groupCounts [] = [] := by
  unfold groupCounts
  rw [List.dedup_nil, List.mergeSort_nil]
  rfl

unseal List.mergeSort List.merge Rat.mul Rat.add Rat.sub Rat.inv in
/-- C8: For every equal-length input batch (with pandas available) `hexbin`
succeeds, the counts over all records sum to the number of input points,
record keys are pairwise distinct and each record's count is exactly the
number of points mapped to its tile; the empty batch yields an empty result;
and two points on one tile yield a single record with counts = 2. -/
theorem hexbin_aggregation_correct :
    (∀ (sqrt3 : ℚ) (x y : List ℚ) (size : ℚ) (o : String) (a : ℚ),
      x.length = y.length →
      ∃ recs : List (ℤ × ℤ × ℕ),
        hexbin sqrt3 true x y size o a = .ok recs ∧
        (recs.map fun t => t.2.2).sum = x.length ∧
        (recs.map fun t => (t.1, t.2.1)).Nodup ∧
        ∀ t ∈ recs, t.2.2 =
          tileCount (List.zipWith
            (fun p q => cartesianToAxialPoint sqrt3 p q size o a) x y)
            (t.1, t.2.1)) ∧
    (∀ (sqrt3 size a : ℚ) (o : String),
      hexbin sqrt3 true [] [] size o a = .ok []) ∧
    hexbin (26/15) true [0, 0] [0, 0] 1 "pointytop" 1 = .ok [(0, 0, 2)] := by
  have hmain : ∀ (sqrt3 : ℚ) (x y : List ℚ) (size : ℚ) (o : String) (a : ℚ),
      x.length = y.length →
      hexbin sqrt3 true x y size o a =
        .ok (groupCounts (List.zipWith
          (fun p q => cartesianToAxialPoint sqrt3 p q size o a) x y)) := by
    intro sqrt3 x y size o a h
    unfold hexbin
    rw [cartesian_to_axial_ok sqrt3 size o a h]
    simp only [Bool.true_eq_false, if_false, List.zip_unzip]
  refine ⟨fun sqrt3 x y size o a h => ?_, fun sqrt3 size a o => ?_, by decide⟩
  · refine ⟨_, hmain sqrt3 x y size o a h, ?_, groupCounts_nodup _,
      groupCounts_mem _⟩
    rw [groupCounts_sum, List.length_zipWith, h, min_self]
  · rw [hmain sqrt3 [] [] size o a rfl]
    rw [show List.zipWith
      (fun p q => cartesianToAxialPoint sqrt3 p q size o a) [] [] =
      ([] : List (ℤ × ℤ)) from rfl, groupCounts_nil]

/-- Witness for C8 at the batch of two identical points (0, 0); both land on
tile (0, 0). -/
theorem hexbin_aggregation_correct_witness :
    ([0, 0] : List ℚ).length = ([0, 0] : List ℚ).length ∧
    ∃ recs : List (ℤ × ℤ × ℕ),
      hexbin (26/15) true [0, 0] [0, 0] 1 "pointytop" 1 = .ok recs ∧
      (recs.map fun t => t.2.2).sum = ([0, 0] : List ℚ).length ∧
      (recs.map fun t => (t.1, t.2.1)).Nodup ∧
      ∀ t ∈ recs, t.2.2 =
        tileCount (List.zipWith
          (fun p q => cartesianToAxialPoint (26/15) p q 1 "pointytop" 1)
          [0, 0] [0, 0]) (t.1, t.2.1) :=
  ⟨rfl, hexbin_aggregation_correct.1 (26/15) [0, 0] [0, 0] 1 "pointytop" 1 rfl⟩
